import Mathlib

/-!
Shallow embedding of the NBT decoder from `pkg/mclib/nbt` (file `nbt.go`).

The decompressed input stream is modelled as a `List Nat` of byte values.
Go functions returning `(T, error)` become functions into `DRes T`, which
also records the remaining stream on success.  Go runtime panics (from
`make` with a negative length) are modelled by the explicit outcome
`DRes.crash`.  Recursion in `readNodeOfType` is bounded by a fuel
argument; `DRes.fuelOut` marks fuel exhaustion.  Every recursion step of
the source consumes at least one stream byte first, so the fuel
`s.length + 1` used by the entry point is never exhausted.

Go `string` values (map keys, string payloads) are byte sequences, so they
are modelled as `List Nat`.  `float32` / `float64` node values are produced
in the source by `math.Float32frombits` / `math.Float64frombits`, i.e. pure
bit reinterpretation, so the embedding stores the bit pattern itself.
-/

/-- Structured error values mirroring the `error` values built in `nbt.go`:
`io.ReadFull` short reads (`eof`), the `"unsupported node type %v"` error,
and the `fmt.Errorf` context wrappers `"read list index %d: %w"`,
`"read compound child %q: %w"` and `"read nbt data: %w"`. -/
inductive DErr where
  | eof : DErr
  | unsupported (t : Nat) : DErr
  | listIndex (i : Nat) (e : DErr) : DErr
  | compoundChild (name : List Nat) (e : DErr) : DErr
  | readNbt (e : DErr) : DErr
deriving DecidableEq, Repr

/-- Outcome of a read: success with the value and the remaining stream,
a Go `error`, a Go runtime panic, or fuel exhaustion (embedding artifact). -/
inductive DRes (α : Type) where
  | ok (val : α) (rest : List Nat) : DRes α
  | err (e : DErr) : DRes α
  | crash : DRes α
  | fuelOut : DRes α
deriving Repr

/-- Sequencing of reads: errors, panics and fuel exhaustion propagate. -/
def DRes.bind {α β : Type} (r : DRes α) (f : α → List Nat → DRes β) : DRes β :=
  match r with
  | .ok a rest => f a rest
  | .err e => .err e
  | .crash => .crash
  | .fuelOut => .fuelOut

/-- Model of `io.ReadFull` on a buffer of length `n`: succeeds with exactly
`n` bytes or fails with a short-read error, never returning fewer bytes. -/
def readFull (n : Nat) (s : List Nat) : DRes (List Nat) :=
  if s.length < n then .err .eof else .ok (s.take n) (s.drop n)

/-- Model of `binary.BigEndian.UintNN`: combine bytes big-endian. -/
def beCombine (bs : List Nat) : Nat :=
  bs.foldl (fun acc b => acc * 256 + b) 0

/-- Big-endian byte representation of `u` in `w` bytes (for building test
streams; the inverse of `beCombine` on `w`-byte lists). -/
def beBytes : Nat → Nat → List Nat
  | 0, _ => []
  | w + 1, u => beBytes w (u / 256) ++ [u % 256]

/-- Reinterpret a `w`-bit unsigned value as a two's-complement signed value,
as Go's `int16(...)`, `int32(...)`, `int64(...)` conversions do. -/
def toSigned (w : Nat) (u : Nat) : Int :=
  if u < 2 ^ (w - 1) then (u : Int) else (u : Int) - 2 ^ w

/-- `readRawByte`: read a single byte. -/
def readRawByte (s : List Nat) : DRes Nat :=
  match s with
  | [] => .err .eof
  | b :: rest => .ok b rest

/-- `readRawUShort`: two bytes, big-endian, unsigned. -/
def readRawUShort (s : List Nat) : DRes Nat :=
  (readFull 2 s).bind fun bs rest => .ok (beCombine bs) rest

/-- `readRawInt`: four bytes, big-endian, reinterpreted as `int32`. -/
def readRawInt (s : List Nat) : DRes Int :=
  (readFull 4 s).bind fun bs rest => .ok (toSigned 32 (beCombine bs)) rest

/-- `readRawString`: a 16-bit unsigned big-endian length, then that many
bytes (the Go `string` is the raw byte sequence). -/
def readRawString (s : List Nat) : DRes (List Nat) :=
  (readRawUShort s).bind fun strLen rest =>
    (readFull strLen rest).bind fun bs rest2 => .ok bs rest2

/-- `readRawNodeType`: one byte used as tag kind. -/
def readRawNodeType (s : List Nat) : DRes Nat :=
  readRawByte s

/-- The node tree.  `list` and `intArray` elements are `Option Node` because
the Go slices are created by `make([]Node, childCount)` and so can contain
`nil` interface values (`none`) before the appended decoded values. -/
inductive Node where
  | byte (v : Nat) : Node
  | short (v : Int) : Node
  | int (v : Int) : Node
  | long (v : Int) : Node
  | float (bits : Nat) : Node
  | double (bits : Nat) : Node
  | str (v : List Nat) : Node
  | list (vs : List (Option Node)) : Node
  | compound (vs : List (List Nat × Node)) : Node
  | intArray (vs : List (Option Node)) : Node
deriving Repr

/-- The `Type()` methods of the node variants, returning the `NodeType`
constants from the source.  `str` returns `3` because `StringNode.Type`
in the source returns `NodeTypeInt`, not `NodeTypeString`. -/
def Node.type : Node → Nat
  | .byte _ => 1
  | .short _ => 2
  | .int _ => 3
  | .long _ => 4
  | .float _ => 5
  | .double _ => 6
  | .str _ => 3
  | .list _ => 9
  | .compound _ => 10
  | .intArray _ => 11

/-- `File` wraps the root node, as in the source. -/
structure File where
  Root : Node
deriving Repr

/-- Go map assignment `m[k] = v` on the association-list model of
`map[string]Node`: replace the binding if the key is present, else add. -/
def mapInsert : List (List Nat × Node) → List Nat → Node → List (List Nat × Node)
  | [], k, v => [(k, v)]
  | (k0, v0) :: rest, k, v =>
    if k0 = k then (k0, v) :: rest else (k0, v0) :: mapInsert rest k v

/-- Go map lookup `m[k]` on the association-list model. -/
def mapLookup : List (List Nat × Node) → List Nat → Option Node
  | [], _ => none
  | (k0, v0) :: rest, k => if k0 = k then some v0 else mapLookup rest k

/-- `readByteNode`. -/
def readByteNode (s : List Nat) : DRes Node :=
  (readRawByte s).bind fun v rest => .ok (.byte v) rest

/-- `readShortNode`: two bytes big-endian reinterpreted as `int16`. -/
def readShortNode (s : List Nat) : DRes Node :=
  (readFull 2 s).bind fun bs rest => .ok (.short (toSigned 16 (beCombine bs))) rest

/-- `readIntNode`. -/
def readIntNode (s : List Nat) : DRes Node :=
  (readRawInt s).bind fun v rest => .ok (.int v) rest

/-- `readLongNode`: eight bytes big-endian reinterpreted as `int64`. -/
def readLongNode (s : List Nat) : DRes Node :=
  (readFull 8 s).bind fun bs rest => .ok (.long (toSigned 64 (beCombine bs))) rest

/-- `readFloatNode`: four bytes big-endian; `math.Float32frombits` is bit
reinterpretation, so the node stores the 32-bit pattern. -/
def readFloatNode (s : List Nat) : DRes Node :=
  (readFull 4 s).bind fun bs rest => .ok (.float (beCombine bs)) rest

/-- `readDoubleNode`: eight bytes big-endian; `math.Float64frombits` is bit
reinterpretation, so the node stores the 64-bit pattern. -/
def readDoubleNode (s : List Nat) : DRes Node :=
  (readFull 8 s).bind fun bs rest => .ok (.double (beCombine bs)) rest

/-- `readStringNode`. -/
def readStringNode (s : List Nat) : DRes Node :=
  (readRawString s).bind fun v rest => .ok (.str v) rest

/-- The element loop of `readListNode`, parameterized by the child reader
(`readNodeOfType` applied to the fixed child kind): decode `remaining`
children, appending each to `acc`; child errors are wrapped with the list
index `i`. -/
def readListElemsF (readChild : List Nat → DRes Node) :
    Nat → Nat → List (Option Node) → List Nat → DRes (List (Option Node))
  | _, 0, acc, s => .ok acc s
  | i, rem + 1, acc, s =>
    match readChild s with
    | .ok c rest => readListElemsF readChild (i + 1) rem (acc ++ [some c]) rest
    | .err e => .err (.listIndex i e)
    | .crash => .crash
    | .fuelOut => .fuelOut

/-- `readListNode`, parameterized by the recursive reader: child tag byte,
then a signed 32-bit count.  The source runs `make([]Node, childCount)`,
which panics for a negative count and otherwise pre-fills the slice with
`childCount` nil values; the loop then appends each decoded child to that
pre-filled slice. -/
def readListNodeF (readChild : Nat → List Nat → DRes Node) (s : List Nat) : DRes Node :=
  (readRawNodeType s).bind fun childNodeType rest =>
    (readRawInt rest).bind fun childCount rest2 =>
      if childCount < 0 then .crash
      else
        (readListElemsF (readChild childNodeType) 0 childCount.toNat
            (List.replicate childCount.toNat none) rest2).bind
          fun vs rest3 => .ok (.list vs) rest3

/-- The entry loop of `readCompoundNode`, parameterized by the recursive
reader: read a tag byte; `End` (0) finishes the map; otherwise read the
name, decode the child, assign it into the map and continue — except that
with `isRoot` set the loop breaks after its first entry (the source's
"the root-node only has a single value" break).  Each iteration consumes
at least the tag byte, so the loop fuel `s.length + 1` supplied by
`readCompoundNodeF` is never exhausted. -/
def readCompoundLoopF (readChild : Nat → List Nat → DRes Node) :
    Nat → Bool → List (List Nat × Node) → List Nat → DRes Node
  | 0, _, _, _ => .fuelOut
  | loopFuel + 1, isRoot, acc, s =>
    (readRawNodeType s).bind fun childNodeType rest =>
      if childNodeType = 0 then .ok (.compound acc) rest
      else
        (readRawString rest).bind fun childName rest2 =>
          match readChild childNodeType rest2 with
          | .ok childNode rest3 =>
            if isRoot then .ok (.compound (mapInsert acc childName childNode)) rest3
            else readCompoundLoopF readChild loopFuel isRoot (mapInsert acc childName childNode) rest3
          | .err e => .err (.compoundChild childName e)
          | .crash => .crash
          | .fuelOut => .fuelOut

/-- `readCompoundNode`, parameterized by the recursive reader: start from
an empty map and run the entry loop. -/
def readCompoundNodeF (readChild : Nat → List Nat → DRes Node) (isRoot : Bool)
    (s : List Nat) : DRes Node :=
  readCompoundLoopF readChild (s.length + 1) isRoot [] s

/-- The element loop of `readIntArrayNode`; the source wraps child errors
with the same `"read list index %d"` context as the list loop. -/
def readIntArrayElemsF (readChild : List Nat → DRes Node) :
    Nat → Nat → List (Option Node) → List Nat → DRes (List (Option Node))
  | _, 0, acc, s => .ok acc s
  | i, rem + 1, acc, s =>
    match readChild s with
    | .ok c rest => readIntArrayElemsF readChild (i + 1) rem (acc ++ [some c]) rest
    | .err e => .err (.listIndex i e)
    | .crash => .crash
    | .fuelOut => .fuelOut

/-- `readIntArrayNode`, parameterized by the recursive reader: a signed
32-bit count, then `Int`-kind children.  Same `make([]Node, childCount)`
then-append pattern as `readListNodeF`. -/
def readIntArrayNodeF (readChild : Nat → List Nat → DRes Node) (s : List Nat) : DRes Node :=
  (readRawInt s).bind fun childCount rest =>
    if childCount < 0 then .crash
    else
      (readIntArrayElemsF (readChild 3) 0 childCount.toNat
          (List.replicate childCount.toNat none) rest).bind
        fun vs rest2 => .ok (.intArray vs) rest2

/-- `readNodeOfType`: the tag-dispatch switch, as a fuel-indexed fixpoint
(one fuel level per nesting depth of composite nodes).  Tags `7`
(`ByteArray`), `12` (`LongArray`), `0` (`End`) and anything outside the
enumeration hit the `default` branch, the `"unsupported node type"` error. -/
def readNodeOfType (fuel : Nat) : Nat → Bool → List Nat → DRes Node :=
  Nat.rec
    (fun _ _ _ => .fuelOut)
    (fun _ prev t isRoot s =>
      if t = 1 then readByteNode s
      else if t = 2 then readShortNode s
      else if t = 3 then readIntNode s
      else if t = 4 then readLongNode s
      else if t = 5 then readFloatNode s
      else if t = 6 then readDoubleNode s
      else if t = 8 then readStringNode s
      else if t = 9 then readListNodeF (fun t2 s2 => prev t2 false s2) s
      else if t = 10 then readCompoundNodeF (fun t2 s2 => prev t2 false s2) isRoot s
      else if t = 11 then readIntArrayNodeF (fun t2 s2 => prev t2 false s2) s
      else .err (.unsupported t))
    fuel

/-- `readNode`: read a tag byte, then dispatch on it. -/
def readNode (fuel : Nat) (s : List Nat) : DRes Node :=
  (readRawNodeType s).bind fun nodeType rest =>
    readNodeOfType fuel nodeType false rest

/-- `readListNode` with the recursive reader instantiated. -/
def readListNode (fuel : Nat) (s : List Nat) : DRes Node :=
  readListNodeF (fun t s2 => readNodeOfType fuel t false s2) s

/-- `readCompoundNode` with the recursive reader instantiated. -/
def readCompoundNode (fuel : Nat) (isRoot : Bool) (s : List Nat) : DRes Node :=
  readCompoundNodeF (fun t s2 => readNodeOfType fuel t false s2) isRoot s

/-- `readIntArrayNode` with the recursive reader instantiated. -/
def readIntArrayNode (fuel : Nat) (s : List Nat) : DRes Node :=
  readIntArrayNodeF (fun t s2 => readNodeOfType fuel t false s2) s

/-- `ReadFromStream`: decode the (already decompressed) stream.  The source
calls `readNodeOfType(r, NodeTypeCompound, true)` directly — no tag byte is
read or checked at top level — and wraps errors with `"read nbt data"`.
The fuel `s.length + 1` always suffices: every composite node consumes at
least one byte of the stream before recursing into a child. -/
def ReadFromStream (s : List Nat) : DRes File :=
  match readNodeOfType (s.length + 1) 10 true s with
  | .ok rootNode rest => .ok ⟨rootNode⟩ rest
  | .err e => .err (.readNbt e)
  | .crash => .crash
  | .fuelOut => .fuelOut

/-! Helper lemmas about the byte-level primitives. -/

theorem beCombine_append_one (bs : List Nat) (b : Nat) :
    beCombine (bs ++ [b]) = beCombine bs * 256 + b := by
  simp [beCombine, List.foldl_append]

theorem beBytes_length (w u : Nat) : (beBytes w u).length = w := by
  induction w generalizing u with
  | zero => simp [beBytes]
  | succ w ih => simp [beBytes, ih]

theorem beCombine_beBytes (w u : Nat) : beCombine (beBytes w u) = u % 256 ^ w := by
  induction w generalizing u with
  | zero => simp [beBytes, beCombine, Nat.mod_one]
  | succ w ih =>
    rw [beBytes, beCombine_append_one, ih, pow_succ,
      show (256 : Nat) ^ w * 256 = 256 * 256 ^ w from Nat.mul_comm _ _, Nat.mod_mul]
    ring

theorem readFull_exact (xs rest : List Nat) :
    readFull xs.length (xs ++ rest) = .ok xs rest := by
  rw [readFull, if_neg (by simp), List.take_left, List.drop_left]

theorem readFull_beBytes (w u : Nat) (rest : List Nat) :
    readFull w (beBytes w u ++ rest) = .ok (beBytes w u) rest := by
  have h := readFull_exact (beBytes w u) rest
  rwa [beBytes_length] at h

theorem readRawString_exact (nm tail : List Nat) (h : nm.length < 65536) :
    readRawString (beBytes 2 nm.length ++ (nm ++ tail)) = .ok nm tail := by
  rw [readRawString, readRawUShort, readFull_beBytes, DRes.bind, DRes.bind,
    beCombine_beBytes, show (256 : Nat) ^ 2 = 65536 from rfl, Nat.mod_eq_of_lt h,
    readFull_exact, DRes.bind]

/-- Unfolding of the tag dispatch at positive fuel. -/
theorem readNodeOfType_succ (fuel : Nat) :
    readNodeOfType (fuel + 1) = fun t isRoot s =>
      if t = 1 then readByteNode s
      else if t = 2 then readShortNode s
      else if t = 3 then readIntNode s
      else if t = 4 then readLongNode s
      else if t = 5 then readFloatNode s
      else if t = 6 then readDoubleNode s
      else if t = 8 then readStringNode s
      else if t = 9 then readListNodeF (fun t2 s2 => readNodeOfType fuel t2 false s2) s
      else if t = 10 then readCompoundNodeF (fun t2 s2 => readNodeOfType fuel t2 false s2) isRoot s
      else if t = 11 then readIntArrayNodeF (fun t2 s2 => readNodeOfType fuel t2 false s2) s
      else .err (.unsupported t) := rfl

/-- Dispatching a tag kind that has no reader fails with the
`"unsupported node type"` error, at any positive fuel. -/
theorem readNodeOfType_unsupported_aux (fuel t : Nat) (isRoot : Bool) (s : List Nat)
    (h : t = 7 ∨ t = 12 ∨ 13 ≤ t) :
    readNodeOfType (fuel + 1) t isRoot s = .err (.unsupported t) := by
  simp only [readNodeOfType_succ]
  rcases h with rfl | rfl | h13
  · norm_num
  · norm_num
  · simp only [if_neg (show ¬ t = 1 by omega), if_neg (show ¬ t = 2 by omega),
      if_neg (show ¬ t = 3 by omega), if_neg (show ¬ t = 4 by omega),
      if_neg (show ¬ t = 5 by omega), if_neg (show ¬ t = 6 by omega),
      if_neg (show ¬ t = 8 by omega), if_neg (show ¬ t = 9 by omega),
      if_neg (show ¬ t = 10 by omega), if_neg (show ¬ t = 11 by omega)]

/-- One iteration of the compound entry loop on a non-End tag whose name and
payload are laid out in the stream. -/
theorem readCompoundLoopF_cons (readChild : Nat → List Nat → DRes Node) (lf : Nat)
    (hlf : 1 ≤ lf) (isRoot : Bool) (acc : List (List Nat × Node)) (t : Nat) (ht : ¬ t = 0)
    (nm tail : List Nat) (hnm : nm.length < 65536) :
    readCompoundLoopF readChild lf isRoot acc (t :: (beBytes 2 nm.length ++ (nm ++ tail)))
      = match readChild t tail with
        | .ok c r =>
          if isRoot then .ok (.compound (mapInsert acc nm c)) r
          else readCompoundLoopF readChild (lf - 1) isRoot (mapInsert acc nm c) r
        | .err e => .err (.compoundChild nm e)
        | .crash => .crash
        | .fuelOut => .fuelOut := by
  obtain ⟨lf2, rfl⟩ : ∃ lf2, lf = lf2 + 1 := ⟨lf - 1, by omega⟩
  simp only [readCompoundLoopF, readRawNodeType, readRawByte, DRes.bind]
  rw [if_neg ht, readRawString_exact nm tail hnm]
  simp only [DRes.bind, Nat.add_sub_cancel]

/-- The compound entry loop stops on the End tag. -/
theorem readCompoundLoopF_end (readChild : Nat → List Nat → DRes Node) (lf : Nat)
    (hlf : 1 ≤ lf) (isRoot : Bool) (acc : List (List Nat × Node)) (rest : List Nat) :
    readCompoundLoopF readChild lf isRoot acc (0 :: rest) = .ok (.compound acc) rest := by
  obtain ⟨lf2, rfl⟩ : ∃ lf2, lf = lf2 + 1 := ⟨lf - 1, by omega⟩
  rfl

/-- Two's-complement round trip at width 16. -/
theorem toSigned16_eq (v : Int) (h1 : -32768 ≤ v) (h2 : v < 32768) :
    toSigned 16 ((v % 65536).toNat) = v := by
  rw [toSigned, show (16 : Nat) - 1 = 15 from rfl,
    show (2 : Nat) ^ 15 = 32768 from by norm_num,
    show ((2 : Int) ^ 16) = 65536 from by norm_num]
  split_ifs with h <;> omega

/-- Two's-complement round trip at width 32. -/
theorem toSigned32_eq (v : Int) (h1 : -2147483648 ≤ v) (h2 : v < 2147483648) :
    toSigned 32 ((v % 4294967296).toNat) = v := by
  rw [toSigned, show (32 : Nat) - 1 = 31 from rfl,
    show (2 : Nat) ^ 31 = 2147483648 from by norm_num,
    show ((2 : Int) ^ 32) = 4294967296 from by norm_num]
  split_ifs with h <;> omega

/-- Two's-complement round trip at width 64. -/
theorem toSigned64_eq (v : Int) (h1 : -9223372036854775808 ≤ v) (h2 : v < 9223372036854775808) :
    toSigned 64 ((v % 18446744073709551616).toNat) = v := by
  rw [toSigned, show (64 : Nat) - 1 = 63 from rfl,
    show (2 : Nat) ^ 63 = 9223372036854775808 from by norm_num,
    show ((2 : Int) ^ 64) = 18446744073709551616 from by norm_num]
  split_ifs with h <;> omega

/-- The entry point on a stream whose first byte is a non-End tag `t`:
the root compound reads `t` as its single entry's tag (no root tag byte is
read or validated), reads the entry name, decodes the entry with the
remaining fuel, and stops after this first entry. -/
theorem ReadFromStream_root_entry (t : Nat) (ht : ¬ t = 0) (body : List Nat) :
    ReadFromStream (t :: 0 :: 0 :: body)
      = match readNodeOfType (body.length + 3) t false body with
        | .ok c r => .ok ⟨.compound [([], c)]⟩ r
        | .err e => .err (.readNbt (.compoundChild [] e))
        | .crash => .crash
        | .fuelOut => .fuelOut := by
  show (match (if t = 0 then DRes.ok (Node.compound []) (0 :: 0 :: body)
        else match readNodeOfType (body.length + 3) t false body with
          | .ok c r => DRes.ok (Node.compound [([], c)]) r
          | .err e => .err (.compoundChild [] e)
          | .crash => .crash
          | .fuelOut => .fuelOut) with
      | DRes.ok rootNode rest => DRes.ok (⟨rootNode⟩ : File) rest
      | .err e => .err (.readNbt e)
      | .crash => .crash
      | .fuelOut => .fuelOut) = _
  rw [if_neg ht]
  cases readNodeOfType (body.length + 3) t false body <;> rfl

/-- C1: the claim says a List of declared count `n` decodes to exactly `n`
elements and an IntArray to exactly `n` Int elements, never `2n` with a
placeholder block.  The code pre-sizes the slice and then appends: a List
of count 1 yields 2 elements (a nil placeholder, then the value), and
likewise for IntArray. -/
theorem C1_list_double_length :
    readListNode 16 [1, 0, 0, 0, 1, 42] = .ok (.list [none, some (.byte 42)]) [] ∧
    readIntArrayNode 16 [0, 0, 0, 1, 0, 0, 0, 7] = .ok (.intArray [none, some (.int 7)]) [] :=
  ⟨rfl, rfl⟩

/-- C2 counterexample: a stream whose first tag byte is `1` (Byte), not the
Map tag `10`, decodes successfully — the entry point does not fail on
non-Map first bytes. -/
theorem C2_counterexample :
    ReadFromStream [1, 0, 0, 5] = .ok ⟨.compound [([], .byte 5)]⟩ [] ∧ ¬ (1 : Nat) = 10 :=
  ⟨rfl, by norm_num⟩

/-- C2 amended: `ReadFromStream` reads no root tag byte; it decodes the
stream directly as the body of a root Map limited to one entry, so the
first byte is the tag of that entry.  A supported non-Map first tag (e.g.
Byte) decodes successfully; an unsupported first tag (7, 12, or ≥ 13)
fails with the unsupported-variant error wrapped in the entry context. -/
theorem C2_amended :
    (∀ (v : Nat) (rest : List Nat),
        ReadFromStream (1 :: 0 :: 0 :: v :: rest) = .ok ⟨.compound [([], .byte v)]⟩ rest) ∧
    (∀ (t : Nat) (rest : List Nat), t = 7 ∨ t = 12 ∨ 13 ≤ t →
        ReadFromStream (t :: 0 :: 0 :: rest)
          = .err (.readNbt (.compoundChild [] (.unsupported t)))) := by
  constructor
  · intro v rest
    rfl
  · intro t rest h
    have ht : ¬ t = 0 := by rcases h with rfl | rfl | h <;> omega
    rw [ReadFromStream_root_entry t ht rest]
    have he : readNodeOfType (rest.length + 3) t false rest = .err (.unsupported t) :=
      readNodeOfType_unsupported_aux (rest.length + 2) t false rest h
    rw [he]

/-- C2 witness: the amended statement instantiated at a Byte-tagged entry
and at the LongArray tag. -/
theorem C2_amended_witness :
    ReadFromStream [1, 0, 0, 9, 0] = .ok ⟨.compound [([], .byte 9)]⟩ [0] ∧
    ReadFromStream [12, 0, 0] = .err (.readNbt (.compoundChild [] (.unsupported 12))) :=
  ⟨C2_amended.1 9 [0], C2_amended.2 12 [] (Or.inr (Or.inl rfl))⟩

/-- C7: the claim says a zero or negative List count yields an empty
sequence and never crashes.  A zero count does decode to an empty list,
but a negative count (here `-1`, bytes `FF FF FF FF`) reaches
`make([]Node, childCount)` with a negative length, a runtime panic. -/
theorem C7_negative_count_crash :
    readListNode 16 [1, 255, 255, 255, 255] = .crash ∧
    (∀ (fuel : Nat) (rest : List Nat),
        readListNode fuel (1 :: 0 :: 0 :: 0 :: 0 :: rest) = .ok (.list []) rest) :=
  ⟨rfl, fun _ _ => rfl⟩

/-- C8: dispatching a value read on the ByteArray tag (7), the LongArray
tag (12), or any tag outside the known enumeration (≥ 13) fails with the
unsupported-variant error, at any positive fuel, for any stream. -/
theorem C8_unsupported_tags :
    ∀ (fuel t : Nat) (isRoot : Bool) (s : List Nat),
      t = 7 ∨ t = 12 ∨ 13 ≤ t →
      readNodeOfType (fuel + 1) t isRoot s = .err (.unsupported t) :=
  fun fuel t isRoot s h => readNodeOfType_unsupported_aux fuel t isRoot s h

/-- C8 witness: the unsupported tags 7, 12 and 13 at fuel 1. -/
theorem C8_unsupported_tags_witness :
    readNodeOfType 1 7 false [] = .err (.unsupported 7) ∧
    readNodeOfType 1 12 false [] = .err (.unsupported 12) ∧
    readNodeOfType 1 13 false [] = .err (.unsupported 13) :=
  ⟨C8_unsupported_tags 0 7 false [] (Or.inl rfl),
   C8_unsupported_tags 0 12 false [] (Or.inr (Or.inl rfl)),
   C8_unsupported_tags 0 13 false [] (Or.inr (Or.inr (by norm_num)))⟩

/-- C9: the claim says every variant's reported kind equals its own wire
tag, in particular a String node reports tag 8.  The source's
`StringNode.Type` returns `NodeTypeInt`, so a String node reports 3. -/
theorem C9_string_type_mismatch :
    (Node.str [120]).type = 3 ∧ ¬ (Node.str [120]).type = 8 :=
  ⟨rfl, by decide⟩

/-- C10: decoding is deterministic — the decoder is a pure function of the
byte stream, so identical streams give identical (structurally equal)
outcomes. -/
theorem C10_deterministic :
    ∀ s1 s2 : List Nat, s1 = s2 → ReadFromStream s1 = ReadFromStream s2 :=
  fun _ _ h => by rw [h]

/-- C10 witness: determinism applied at a concrete stream. -/
theorem C10_deterministic_witness :
    ReadFromStream [10, 0, 0, 0] = ReadFromStream [10, 0, 0, 0] :=
  C10_deterministic [10, 0, 0, 0] [10, 0, 0, 0] rfl

/-- C3 counterexample: the same two-entry stream (key `""` bound to Byte 5,
then to Byte 6, then End) decoded as the document root keeps the EARLIER
value and stops before the End sentinel, while a nested Map keeps the
later value — so "the later value replaces the earlier one … including the
document root" is false. -/
theorem C3_counterexample :
    readCompoundNode 16 true [1, 0, 0, 5, 1, 0, 0, 6, 0]
      = .ok (.compound [([], .byte 5)]) [1, 0, 0, 6, 0] ∧
    readCompoundNode 16 false [1, 0, 0, 5, 1, 0, 0, 6, 0]
      = .ok (.compound [([], .byte 6)]) [] ∧
    ¬ Node.byte 5 = Node.byte 6 :=
  ⟨rfl, rfl, by simp⟩

/-- C3 amended: a Map whose first tag is End yields an empty mapping (root
or not); in a non-root Map a duplicate key keeps only the later value, and
the map-insert operation always makes the later value the association; the
root Map's loop additionally terminates after its first entry, so only the
first root entry is kept. -/
theorem C3_amended :
    (∀ (fuel : Nat) (isRoot : Bool) (rest : List Nat),
        readCompoundNode fuel isRoot (0 :: rest) = .ok (.compound []) rest) ∧
    (∀ (nm : List Nat) (v1 v2 fuel : Nat), nm.length < 65536 →
        readCompoundNode (fuel + 1) false
            (1 :: (beBytes 2 nm.length ++ (nm ++
              (v1 :: 1 :: (beBytes 2 nm.length ++ (nm ++ [v2, 0]))))))
          = .ok (.compound [(nm, .byte v2)]) []) ∧
    (∀ (m : List (List Nat × Node)) (k : List Nat) (v : Node),
        mapLookup (mapInsert m k v) k = some v) ∧
    (∀ (fuel v : Nat) (rest : List Nat),
        readCompoundNode (fuel + 1) true (1 :: 0 :: 0 :: v :: rest)
          = .ok (.compound [([], .byte v)]) rest) := by
  refine ⟨fun _ _ _ => rfl, ?_, ?_, fun _ _ _ => rfl⟩
  · intro nm v1 v2 fuel h
    simp only [readCompoundNode, readCompoundNodeF]
    rw [readCompoundLoopF_cons _ _ (by simp) false [] 1 (by norm_num) nm _ h]
    rw [show readNodeOfType (fuel + 1) 1 false
          (v1 :: 1 :: (beBytes 2 nm.length ++ (nm ++ [v2, 0])))
        = .ok (.byte v1) (1 :: (beBytes 2 nm.length ++ (nm ++ [v2, 0]))) from rfl]
    simp only [mapInsert]
    rw [readCompoundLoopF_cons _ _
        (by simp only [List.length_cons, List.length_append, beBytes_length]; omega)
        false _ 1 (by norm_num) nm _ h]
    rw [show readNodeOfType (fuel + 1) 1 false [v2, 0] = .ok (.byte v2) [0] from rfl]
    simp [mapInsert]
    rw [readCompoundLoopF_end]
    simp only [List.length_cons, List.length_append, beBytes_length]
    omega
  · intro m k v
    induction m with
    | nil => simp [mapInsert, mapLookup]
    | cons kv rest ih =>
      obtain ⟨k0, v0⟩ := kv
      by_cases hk : k0 = k
      · simp [mapInsert, hk, mapLookup]
      · simp [mapInsert, hk, mapLookup, ih]

/-- C3 witness: the amended statement instantiated — an immediately-ended
root Map, a nested Map with the duplicate key `"x"` keeping Byte 6, a map
insert looked up, and a single-entry root Map. -/
theorem C3_amended_witness :
    readCompoundNode 0 true [0, 7] = .ok (.compound []) [7] ∧
    readCompoundNode 1 false [1, 0, 1, 120, 5, 1, 0, 1, 120, 6, 0]
      = .ok (.compound [([120], .byte 6)]) [] ∧
    mapLookup (mapInsert [] [120] (.int 1)) [120] = some (.int 1) ∧
    readCompoundNode 1 true [1, 0, 0, 5] = .ok (.compound [([], .byte 5)]) [] :=
  ⟨C3_amended.1 0 true [7],
   C3_amended.2.1 [120] 5 6 0 (by norm_num),
   C3_amended.2.2.1 [] [120] (.int 1),
   C3_amended.2.2.2 0 5 []⟩

/-- C4 counterexample: on the claimed 12-byte stream the decode succeeds,
but the root Map's single key is the empty string (bound to a nested Map),
not `"x"` bound to Int 42 as the claim states. -/
theorem C4_counterexample :
    ReadFromStream [10, 0, 0, 3, 0, 1, 120, 0, 0, 0, 42, 0]
      = .ok ⟨.compound [([], .compound [([120], .int 42)])]⟩ [] ∧
    ¬ Node.compound [([], Node.compound [([120], Node.int 42)])]
        = Node.compound [([120], Node.int 42)] :=
  ⟨rfl, by simp⟩

/-- C4 amended: decoding the 12-byte stream succeeds and the root Map has
exactly one key, the empty string, mapping to a Map that has exactly one
key `"x"` (byte 120) mapping to Int 42. -/
theorem C4_amended :
    ReadFromStream [10, 0, 0, 3, 0, 1, 120, 0, 0, 0, 42, 0]
      = .ok ⟨.compound [([], .compound [([120], .int 42)])]⟩ [] ∧
    mapLookup [([], Node.compound [([120], Node.int 42)])] []
      = some (.compound [([120], .int 42)]) ∧
    mapLookup [([120], Node.int 42)] [120] = some (.int 42) :=
  ⟨rfl, rfl, rfl⟩

/-- C5: for every scalar kind, decoding the fixed-width big-endian two's
complement (respectively raw bit-pattern) representation of a value yields
a node holding exactly that value, over the whole representable range;
Float and Double values are identified with their IEEE-754 bit patterns
because the source builds them by bit reinterpretation. -/
theorem C5_scalar_roundtrip :
    (∀ (v : Nat) (rest : List Nat), readByteNode (v :: rest) = .ok (.byte v) rest) ∧
    (∀ (v : Int) (rest : List Nat), -32768 ≤ v → v < 32768 →
        readShortNode (beBytes 2 (v % 65536).toNat ++ rest) = .ok (.short v) rest) ∧
    (∀ (v : Int) (rest : List Nat), -2147483648 ≤ v → v < 2147483648 →
        readIntNode (beBytes 4 (v % 4294967296).toNat ++ rest) = .ok (.int v) rest) ∧
    (∀ (v : Int) (rest : List Nat),
        -9223372036854775808 ≤ v → v < 9223372036854775808 →
        readLongNode (beBytes 8 (v % 18446744073709551616).toNat ++ rest)
          = .ok (.long v) rest) ∧
    (∀ (bits : Nat) (rest : List Nat), bits < 4294967296 →
        readFloatNode (beBytes 4 bits ++ rest) = .ok (.float bits) rest) ∧
    (∀ (bits : Nat) (rest : List Nat), bits < 18446744073709551616 →
        readDoubleNode (beBytes 8 bits ++ rest) = .ok (.double bits) rest) := by
  refine ⟨fun v rest => rfl, fun v rest h1 h2 => ?_, fun v rest h1 h2 => ?_,
    fun v rest h1 h2 => ?_, fun bits rest h => ?_, fun bits rest h => ?_⟩
  · simp only [readShortNode, readFull_beBytes, DRes.bind, beCombine_beBytes]
    rw [show (256 : Nat) ^ 2 = 65536 from by norm_num,
      Nat.mod_eq_of_lt (by omega), toSigned16_eq v h1 h2]
  · simp only [readIntNode, readRawInt, readFull_beBytes, DRes.bind, beCombine_beBytes]
    rw [show (256 : Nat) ^ 4 = 4294967296 from by norm_num,
      Nat.mod_eq_of_lt (by omega), toSigned32_eq v h1 h2]
  · simp only [readLongNode, readFull_beBytes, DRes.bind, beCombine_beBytes]
    rw [show (256 : Nat) ^ 8 = 18446744073709551616 from by norm_num,
      Nat.mod_eq_of_lt (by omega), toSigned64_eq v h1 h2]
  · simp only [readFloatNode, readFull_beBytes, DRes.bind, beCombine_beBytes]
    rw [show (256 : Nat) ^ 4 = 4294967296 from by norm_num, Nat.mod_eq_of_lt h]
  · simp only [readDoubleNode, readFull_beBytes, DRes.bind, beCombine_beBytes]
    rw [show (256 : Nat) ^ 8 = 18446744073709551616 from by norm_num, Nat.mod_eq_of_lt h]

/-- C5 witness: the round trip at range boundaries — the maximal byte, the
minimal short, the maximal int32, the minimal int64, a float32 NaN bit
pattern (0x7FC00000) and the float64 negative-zero bit pattern (1 << 63). -/
theorem C5_scalar_roundtrip_witness :
    readByteNode (255 :: []) = .ok (.byte 255) [] ∧
    readShortNode (beBytes 2 ((-32768 : Int) % 65536).toNat ++ [])
      = .ok (.short (-32768)) [] ∧
    readIntNode (beBytes 4 ((2147483647 : Int) % 4294967296).toNat ++ [])
      = .ok (.int 2147483647) [] ∧
    readLongNode (beBytes 8 ((-9223372036854775808 : Int) % 18446744073709551616).toNat ++ [])
      = .ok (.long (-9223372036854775808)) [] ∧
    readFloatNode (beBytes 4 2143289344 ++ []) = .ok (.float 2143289344) [] ∧
    readDoubleNode (beBytes 8 9223372036854775808 ++ [])
      = .ok (.double 9223372036854775808) [] :=
  ⟨C5_scalar_roundtrip.1 255 [],
   C5_scalar_roundtrip.2.1 (-32768) [] (by norm_num) (by norm_num),
   C5_scalar_roundtrip.2.2.1 2147483647 [] (by norm_num) (by norm_num),
   C5_scalar_roundtrip.2.2.2.1 (-9223372036854775808) [] (by norm_num) (by norm_num),
   C5_scalar_roundtrip.2.2.2.2.1 2143289344 [] (by norm_num),
   C5_scalar_roundtrip.2.2.2.2.2 9223372036854775808 [] (by norm_num)⟩

/-- C6: a stream shorter than a field's declared byte count always makes
the read fail with the short-read error — fixed-width reads fail on short
streams, a string read fails when fewer bytes than the declared length
remain and never returns fewer bytes than declared on success, the error
propagates through the node readers, and a truncated document makes the
whole entry-point call fail with wrapped context. -/
theorem C6_truncation_errors :
    (∀ s : List Nat, s.length < 1 → readRawByte s = .err .eof) ∧
    (∀ s : List Nat, s.length < 2 → readRawUShort s = .err .eof) ∧
    (∀ s : List Nat, s.length < 4 → readRawInt s = .err .eof) ∧
    (∀ s : List Nat, s.length < 8 → readLongNode s = .err .eof) ∧
    (∀ (n : Nat) (rest : List Nat), n < 65536 → rest.length < n →
        readRawString (beBytes 2 n ++ rest) = .err .eof) ∧
    (∀ (s v rest : List Nat), readRawString s = .ok v rest → 2 + v.length ≤ s.length) ∧
    (∀ (s : List Nat) (e : DErr), readRawString s = .err e → readStringNode s = .err e) ∧
    ReadFromStream [1, 0, 0] = .err (.readNbt (.compoundChild [] .eof)) := by
  refine ⟨?hbyte, ?hshort, ?hint, ?hlong, ?hstr, ?hok, ?hprop, rfl⟩
  · intro s h
    cases s with
    | nil => rfl
    | cons a l => simp at h
  · intro s h
    rw [readRawUShort, readFull, if_pos h]
    rfl
  · intro s h
    rw [readRawInt, readFull, if_pos h]
    rfl
  · intro s h
    rw [readLongNode, readFull, if_pos h]
    rfl
  · intro n rest hn hr
    simp only [readRawString, readRawUShort, readFull_beBytes, DRes.bind]
    rw [beCombine_beBytes, show (256 : Nat) ^ 2 = 65536 from by norm_num,
      Nat.mod_eq_of_lt hn, readFull, if_pos hr]
  · intro s v rest h
    simp only [readRawString, readRawUShort, readFull, DRes.bind] at h
    by_cases h2 : s.length < 2
    · rw [if_pos h2] at h
      simp only [DRes.bind] at h
      cases h
    · rw [if_neg h2] at h
      simp only [DRes.bind] at h
      by_cases h3 : (s.drop 2).length < beCombine (s.take 2)
      · rw [if_pos h3] at h
        simp only [DRes.bind] at h
        cases h
      · rw [if_neg h3] at h
        simp only [DRes.bind, DRes.ok.injEq] at h
        obtain ⟨hv, -⟩ := h
        subst hv
        simp only [List.length_take, List.length_drop] at h3 ⊢
        omega
  · intro s e h
    rw [readStringNode, h]
    rfl

/-- C6 witness: each truncation conjunct instantiated at a concrete short
stream. -/
theorem C6_truncation_errors_witness :
    readRawByte [] = .err .eof ∧
    readRawUShort [9] = .err .eof ∧
    readRawInt [9, 9, 9] = .err .eof ∧
    readLongNode [9, 9, 9, 9, 9, 9, 9] = .err .eof ∧
    readRawString (beBytes 2 3 ++ [7, 7]) = .err .eof ∧
    2 + List.length ([] : List Nat) ≤ List.length [0, 0] ∧
    readStringNode [0] = .err .eof :=
  ⟨C6_truncation_errors.1 [] (by norm_num),
   C6_truncation_errors.2.1 [9] (by norm_num),
   C6_truncation_errors.2.2.1 [9, 9, 9] (by norm_num),
   C6_truncation_errors.2.2.2.1 [9, 9, 9, 9, 9, 9, 9] (by norm_num),
   C6_truncation_errors.2.2.2.2.1 3 [7, 7] (by norm_num) (by norm_num),
   C6_truncation_errors.2.2.2.2.2.1 [0, 0] [] [] rfl,
   C6_truncation_errors.2.2.2.2.2.2.1 [0] .eof rfl⟩
